import Mathlib

/-!
Verification of the credential-reconciliation and aggregation core of
`go-infinias-api`.

The Go source is shallowly embedded: the SQL-backed local store becomes an
explicit `DB` state record, transactional functions become pure functions
returning `Except` (an error aborts the transaction, so the caller keeps the
pre-transaction state), Go integers become `Int`, byte slices become
`Option (List Nat)` (`none` is a nil slice), and the remote vendor API becomes
an oracle record of functions.  Loops that can diverge (the retry supervisor)
take an explicit fuel argument; `none` means the fuel ran out before the loop
returned.
-/

/-- Errors of the `db` package: `ErrNotFound`, `ErrCredentialExists`, and the
wrapped `fmt.Errorf` internal errors. -/
inductive DBErr where
  | notFound
  | credentialExists
  | internal (msg : String)
deriving DecidableEq

/-- One row of `EAC.Credential` (the columns the code touches). -/
structure CredRow where
  id : Int
  personId : Int
  isActive : Bool
deriving DecidableEq

/-- One row of `EAC.WiegandCredential`. -/
structure WiegandRow where
  siteCode : Int
  cardCode : Int
  credentialId : Int
  customerZoneId : Int
  isStringCredential : Bool
deriving DecidableEq

/-- `db.Credential`: the reconciler's input/output record. -/
structure Credential where
  id : Int
  active : Bool
  siteCode : Int
  cardCode : Int
deriving DecidableEq

/-- The local relational store: the three tables the core uses, plus the
identity-column counter that `SCOPE_IDENTITY()` reads after an insert into
`EAC.Credential`.  A picture value of `none` is a SQL `NULL` image. -/
structure DB where
  creds : List CredRow
  wiegand : List WiegandRow
  pictures : List (Int × Option (List Nat))
  nextId : Int
deriving DecidableEq

/-- Go's `len` on a possibly-nil byte slice. -/
def golen (b : Option (List Nat)) : Nat := (b.getD []).length

/-- The existence check of `Conn.CreateCredential`:
`select cred.Id, cred.PersonId, cred.IsActive from EAC.Credential as cred
inner join EAC.WiegandCredential as wiegand on cred.Id = wiegand.CredentialId
where wiegand.SiteCode = @p1 and wiegand.CardCode = @p2 and CustomerZoneId = 1`,
returning the first matching row if any. -/
def DB.findCred (db : DB) (site card : Int) : Option (Int × Int × Bool) :=
  db.wiegand.findSome? fun w =>
    if w.siteCode = site ∧ w.cardCode = card ∧ w.customerZoneId = 1 then
      db.creds.findSome? fun c =>
        if c.id = w.credentialId then some (c.id, c.personId, c.isActive) else none
    else none

/-- `Conn.CreateCredential` (the credential reconciler).  The whole body runs in
one transaction (`WithTx`); an error aborts it, so no state escapes on the
`.error` branches.  When `QueryRow ... .Scan` hits `sql.ErrNoRows` the scanned
variables keep their zero values `(0, 0, false)`.  The returned `Int` is the
value of `credID` after the transaction body ran (the `c.WithTx(...)` call in
the return statement is executed before the plain operand `int(credID)` is
read). -/
def DB.CreateCredential (db : DB) (id : Int) (cred : Credential) :
    Except DBErr (Int × DB) :=
  let scanned := (db.findCred cred.siteCode cred.cardCode).getD (0, 0, false)
  let credID := scanned.1
  let personID := scanned.2.1
  let active := scanned.2.2
  if credID ≠ 0 ∧ personID ≠ id then
    -- credential exists for another user
    .error .credentialExists
  else if credID ≠ 0 ∧ personID = id ∧ cred.active = active then
    -- credential exists and matches: no-op
    .ok (credID, db)
  else if credID ≠ 0 ∧ personID = id then
    -- credential exists but has mismatched status: update the active flag only
    .ok (credID, { db with
      creds := db.creds.map fun c =>
        if c.id = credID then { c with isActive := cred.active } else c })
  else
    -- create credential, then its wiegand row
    let newID := db.nextId
    if newID < 1 then
      .error (.internal "unexpected credential id")
    else
      .ok (newID, { db with
        creds := db.creds ++ [⟨newID, id, cred.active⟩],
        wiegand := db.wiegand ++ [⟨cred.siteCode, cred.cardCode, newID, 1, false⟩],
        nextId := newID + 1 })

/-- The store state visible after `Conn.CreateCredential` returns: on an error
`WithTx` rolled the transaction back, so the store is unchanged. -/
def DB.CreateCredentialState (db : DB) (id : Int) (cred : Credential) : DB :=
  match db.CreateCredential id cred with
  | .ok (_, db') => db'
  | .error _ => db

/-- `Conn.DeleteCredential`: count the person's rows with this credential id;
0 is a no-op success, more than 1 is an internal-consistency error, exactly 1
deletes the wiegand rows and then the credential row, all in one transaction. -/
def DB.DeleteCredential (db : DB) (id credID : Int) : Except DBErr DB :=
  let count := (db.creds.filter fun c =>
    decide (c.id = credID ∧ c.personId = id)).length
  if count = 0 then
    .ok db
  else if count > 1 then
    .error (.internal "unexpected credential count")
  else
    .ok { db with
      wiegand := db.wiegand.filter fun w => decide (¬w.credentialId = credID),
      creds := db.creds.filter fun c => decide (¬c.id = credID) }

/-- `Conn.ReadPicture`: `sql.ErrNoRows` becomes `ErrNotFound`; a `NULL` image
scans into a nil slice (`none`). -/
def DB.ReadPicture (db : DB) (id : Int) : Except DBErr (Option (List Nat)) :=
  match db.pictures.find? fun r => decide (r.1 = id) with
  | none => .error .notFound
  | some r => .ok r.2

/-- `Conn.UpdatePicture`: inside one transaction, insert the row if the person
has none, otherwise overwrite the image. -/
def DB.UpdatePicture (db : DB) (id : Int) (buf : Option (List Nat)) : DB :=
  let count := (db.pictures.filter fun r => decide (r.1 = id)).length
  if count = 0 then
    { db with pictures := db.pictures ++ [(id, buf)] }
  else
    { db with pictures := db.pictures.map fun r =>
        if r.1 = id then (r.1, buf) else r }

/-- Number of wiegand rows bound to a given card pair (in zone 1). -/
def DB.cardPairCount (db : DB) (site card : Int) : Nat :=
  (db.wiegand.filter fun w =>
    decide (w.siteCode = site ∧ w.cardCode = card ∧ w.customerZoneId = 1)).length

/-! ## Remote directory client: paginated listing (`api` package) -/

/-- One page of a paginated vendor-API response: the decoded `Items` and the
server-declared total `Count`. -/
structure Page (β : Type) where
  items : List β
  count : Int
deriving DecidableEq

/-- The common listing loop of `Conn.ListPeople` and `Conn.ListGroups`:
`total := 1; count := 0; for count < total { request page at Start=count;
append transformed items; total := page.Count; count := len(accumulated) }`.
The input list is the stream of successive server responses; `none` means the
stream ran out while the loop still wanted a page.  The second result component
records the `Start` offset of every page request made, in order. -/
def paginate (f : β → α) : List (Page β) → List α → Int → Option (List α × List Nat)
  | [], acc, total =>
    if (acc.length : Int) < total then none else some (acc, [])
  | p :: rest, acc, total =>
    if (acc.length : Int) < total then
      match paginate f rest (acc ++ p.items.map f) p.count with
      | none => none
      | some (res, offs) => some (res, acc.length :: offs)
    else
      some (acc, [])

/-- `api.Person`. -/
structure ApiPerson where
  id : Int
  firstName : String
  lastName : String
  employeeID : String
  department : String
  siteCode : Int
  cardCode : Int
  groupsToAdd : List Int
deriving DecidableEq

/-- `api.Group`. -/
structure ApiGroup where
  id : Int
  name : String
deriving DecidableEq

/-- A raw person item of a `ListPeople` page, before card-number parsing. -/
structure RawPerson where
  id : Int
  firstName : String
  lastName : String
  employeeID : String
  department : String
  cardNumber : String
deriving DecidableEq

/-- A raw group item of a `ListGroups` page. -/
structure RawGroup where
  id : Int
  name : String
deriving DecidableEq

/-- `cardRegexp = ^(\d+)-(\d+)$` followed by `strconv.Atoi` on each group: the
pattern matches exactly when the string is two nonempty digit runs joined by a
single dash, which is exactly when both `String.toNat?` calls succeed. -/
def parseCardNumber (s : String) : Int × Int :=
  match s.splitOn "-" with
  | [a, b] =>
    match a.toNat?, b.toNat? with
    | some site, some card => ((site : Int), (card : Int))
    | _, _ => (0, 0)
  | _ => (0, 0)

/-- The per-item projection inside `Conn.ListPeople`'s loop. -/
def personOfRaw (p : RawPerson) : ApiPerson :=
  let sc := parseCardNumber p.cardNumber
  ⟨p.id, p.firstName, p.lastName, p.employeeID, p.department, sc.1, sc.2, []⟩

/-- The per-item projection inside `Conn.ListGroups`'s loop. -/
def groupOfRaw (g : RawGroup) : ApiGroup :=
  ⟨g.id, g.name⟩

/-- `Conn.ListPeople`, as a function of the server's page stream. -/
def Conn.ListPeople (pages : List (Page RawPerson)) :
    Option (List ApiPerson × List Nat) :=
  paginate personOfRaw pages [] 1

/-- `Conn.ListGroups`, as a function of the server's page stream. -/
def Conn.ListGroups (pages : List (Page RawGroup)) :
    Option (List ApiGroup × List Nat) :=
  paginate groupOfRaw pages [] 1

/-! ## Aggregation layer (`infinias` package) -/

/-- Errors of the `api` package: structured `(id, msg)` pairs, or
`ErrUnsuccessfulRequest`. -/
inductive ApiErr where
  | errs (es : List (String × String))
  | unsuccessful
deriving DecidableEq

/-- Errors surfaced by the aggregation layer. -/
inductive SvcErr where
  | invalidID
  | api (e : ApiErr)
  | dbe (e : DBErr)
deriving DecidableEq

/-- `infinias.Person`: the consumer-facing projection. -/
structure Person where
  id : Int
  firstName : String
  lastName : String
  employeeID : String
  department : String
  siteCode : Int
  cardCode : Int
  image : Option (List Nat)
  hasImage : Bool
  groupsToAdd : List Int
  credentials : List Credential
deriving DecidableEq

/-- The `api.Person` that `Service.UpdatePerson` sends to the remote directory
(identity fields only; no image, `has_image`, or credentials). -/
def apiPersonOf (p : Person) : ApiPerson :=
  ⟨p.id, p.firstName, p.lastName, p.employeeID, p.department,
    p.siteCode, p.cardCode, p.groupsToAdd⟩

/-- The `api.Person` that `Service.CreatePerson` sends (no `ID` field is set,
so it carries the zero value). -/
def apiPersonOfCreate (p : Person) : ApiPerson :=
  { apiPersonOf p with id := 0 }

/-- The mutable world a service call runs against: the local store state plus
the remote directory, modelled as deterministic oracles (the remote side keeps
no state the core observes within one call). -/
structure World where
  db : DB
  apiCreatePerson : ApiPerson → Except ApiErr Int
  apiUpdatePerson : ApiPerson → Except ApiErr Unit

/-- The credential loop shared by `Service.CreatePerson` and
`Service.UpdatePerson`: skip a supplied credential when it equals the primary
site/card pair, otherwise call the reconciler; abort on the first reconciler
error (that transaction rolled back, earlier ones already committed).  The
third component records the credentials actually passed to the reconciler, in
order. -/
def credentialLoop (id site card : Int) :
    DB → List Credential → Option DBErr × DB × List Credential
  | db, [] => (none, db, [])
  | db, c :: rest =>
    if c.siteCode = site ∧ c.cardCode = card then
      credentialLoop id site card db rest
    else
      match db.CreateCredential id c with
      | .error e => (some e, db, [c])
      | .ok (_, db') =>
        let r := credentialLoop id site card db' rest
        (r.1, r.2.1, c :: r.2.2)

/-- `Service.CreatePerson`.  Note the early `return id, nil` when no image was
supplied: in that case neither the picture write nor the credential loop runs.
Returns the outcome, the resulting store, and the reconciler-call trace. -/
def Service.CreatePerson (w : World) (p : Person) :
    Except SvcErr Int × DB × List Credential :=
  match w.apiCreatePerson (apiPersonOfCreate p) with
  | .error e => (.error (.api e), w.db, [])
  | .ok id =>
    if p.image = none then
      (.ok id, w.db, [])
    else
      let db1 := w.db.UpdatePicture id p.image
      match credentialLoop id p.siteCode p.cardCode db1 p.credentials with
      | (none, db2, t) => (.ok id, db2, t)
      | (some e, db2, t) => (.error (.dbe e), db2, t)

/-- `Service.UpdatePerson`.  Rejects a zero identifier; pushes identity fields
to the remote directory; then the early `return nil` when `len(p.Image) == 0`
skips both the picture write and the credential loop. -/
def Service.UpdatePerson (w : World) (p : Person) :
    Except SvcErr Unit × DB × List Credential :=
  if p.id = 0 then
    (.error .invalidID, w.db, [])
  else
    match w.apiUpdatePerson (apiPersonOf p) with
    | .error e => (.error (.api e), w.db, [])
    | .ok _ =>
      if golen p.image = 0 then
        (.ok (), w.db, [])
      else
        let db1 := w.db.UpdatePicture p.id p.image
        match credentialLoop p.id p.siteCode p.cardCode db1 p.credentials with
        | (none, db2, t) => (.ok (), db2, t)
        | (some e, db2, t) => (.error (.dbe e), db2, t)

/-- Whether the store holds a nonempty picture for `id` (the computation
`ReadPerson` and the update handler use: a missing row or an empty/NULL buffer
count as no image). -/
def hasPicture (db : DB) (id : Int) : Bool :=
  match db.ReadPicture id with
  | .ok buf => golen buf != 0
  | .error _ => false

/-- `Service.CreatePersonHandler` after request decoding: run the create, then
rewrite the echoed projection: the assigned id, `HasImage = len(p.Image) != 0`,
and the write-only `Image`/`GroupsToAdd` fields stripped.  (HTTP status-code
mapping is routing-layer detail and not modelled.) -/
def Service.CreatePersonHandler (w : World) (p : Person) :
    Except SvcErr (Person × DB) :=
  match Service.CreatePerson w p with
  | (.error e, _, _) => .error e
  | (.ok id, db', _) =>
    .ok ({ p with
            id := id, hasImage := (golen p.image != 0),
            image := none, groupsToAdd := [] }, db')

/-- `Service.UpdatePersonHandler` after request decoding: the URL id overrides
the body id, the caller-supplied `HasImage` is cleared ("client can't set
this"), and after the update `HasImage` is recomputed: `true` if an image was
just written, otherwise by reading the store (absence maps to `false`). -/
def Service.UpdatePersonHandler (w : World) (idArg : Int) (p0 : Person) :
    Except SvcErr (Person × DB) :=
  let p := { p0 with id := idArg, hasImage := false }
  match Service.UpdatePerson w p with
  | (.error e, _, _) => .error e
  | (.ok _, db', _) =>
    let p1 := { p with groupsToAdd := [] }
    if golen p.image ≠ 0 then
      .ok ({ p1 with hasImage := true, image := none }, db')
    else
      match db'.ReadPicture p.id with
      | .error .notFound => .ok (p1, db')
      | .error e => .error (.dbe e)
      | .ok _ => .ok ({ p1 with hasImage := true }, db')

/-! ## Retry supervisor (`service` package) -/

/-- `service.RetryStrategy`.  Durations are `time.Duration` nanosecond counts,
embedded as `Int`. -/
structure RetryStrategy where
  initial : Int
  maxRetries : Nat
  maxDuration : Int
  maxJitter : Int
deriving DecidableEq

/-- How a run of `RetryStrategy.Retry` ended: the task succeeded, the retry
budget was exhausted (the last task error is surfaced), or `rand.Int63n`
panicked because `MaxJitter ≤ 0` (`Int63n(n)` panics for `n <= 0`). -/
inductive RetryOutcome (ε : Type) where
  | success
  | exhausted (e : ε)
  | panicked
deriving DecidableEq

/-- An observed run of the retry loop: its outcome, the sleep durations in
order, and how many times the supervised task was invoked. -/
structure RetryRun (ε : Type) where
  outcome : RetryOutcome ε
  sleeps : List Int
  calls : Nat
deriving DecidableEq

/-- The loop of `RetryStrategy.Retry`.  `f n` is the result of the task's
`n`-th invocation (`none` = nil error); `jit n` is the value `rand.Int63n`
returns before the `n`-th sleep.  `fuel` bounds the number of iterations the
embedding unfolds; `none` means the loop was still running when it ran out. -/
def retryLoop (s : RetryStrategy) (jit : Nat → Int) (f : Nat → Option ε) :
    Nat → Nat → Int → Option (RetryRun ε)
  | 0, _, _ => none
  | fuel + 1, tries, backoff =>
    match f tries with
    | none => some ⟨.success, [], 1⟩
    | some e =>
      if tries + 1 = s.maxRetries then
        some ⟨.exhausted e, [], 1⟩
      else
        let b := if backoff > s.maxDuration then s.maxDuration else backoff
        if s.maxJitter ≤ 0 then
          some ⟨.panicked, [], 1⟩
        else
          let dur := b + jit tries
          match retryLoop s jit f fuel (tries + 1) (b * 2) with
          | none => none
          | some r => some ⟨r.outcome, dur :: r.sleeps, r.calls + 1⟩

/-- `RetryStrategy.Retry`: start with `tries = 0` and `backoff = Initial`. -/
def RetryStrategy.Retry (s : RetryStrategy) (jit : Nat → Int)
    (f : Nat → Option ε) (fuel : Nat) : Option (RetryRun ε) :=
  retryLoop s jit f fuel 0 s.initial

/-! ## Theorems -/

/-- C2: reconciling a card pair that another person already holds fails with
the credential-conflict error, the transaction aborts with no writes (the
store after the call is the pre-call store), and the wiegand row count for
that pair is unchanged (in particular it stays 1 when it was 1). -/
theorem C2_conflictAbortsWithoutWrites (db : DB) (a b : Int) (cred : Credential)
    (cid : Int) (act : Bool)
    (hfind : db.findCred cred.siteCode cred.cardCode = some (cid, a, act))
    (hcid : cid ≠ 0) (hab : a ≠ b) :
    db.CreateCredential b cred = .error .credentialExists ∧
    db.CreateCredentialState b cred = db ∧
    (db.CreateCredentialState b cred).cardPairCount cred.siteCode cred.cardCode =
      db.cardPairCount cred.siteCode cred.cardCode := by
  have h1 : db.CreateCredential b cred = .error .credentialExists := by
    simp [DB.CreateCredential, hfind, hcid, hab]
  have h2 : db.CreateCredentialState b cred = db := by
    simp [DB.CreateCredentialState, h1]
  exact ⟨h1, h2, by rw [h2]⟩

/-- Witness for C2: a store holding card (10, 20) for person 1; person 2
requesting the same pair is rejected and the store is untouched. -/
theorem C2_witness :
    DB.CreateCredential ⟨[⟨7, 1, true⟩], [⟨10, 20, 7, 1, false⟩], [], 8⟩ 2
        ⟨0, true, 10, 20⟩ = .error .credentialExists ∧
    DB.CreateCredentialState ⟨[⟨7, 1, true⟩], [⟨10, 20, 7, 1, false⟩], [], 8⟩ 2
        ⟨0, true, 10, 20⟩ = ⟨[⟨7, 1, true⟩], [⟨10, 20, 7, 1, false⟩], [], 8⟩ ∧
    DB.cardPairCount (DB.CreateCredentialState
        ⟨[⟨7, 1, true⟩], [⟨10, 20, 7, 1, false⟩], [], 8⟩ 2 ⟨0, true, 10, 20⟩)
        10 20 =
      DB.cardPairCount ⟨[⟨7, 1, true⟩], [⟨10, 20, 7, 1, false⟩], [], 8⟩ 10 20 :=
  C2_conflictAbortsWithoutWrites _ 1 2 _ 7 true (by decide) (by decide) (by decide)

/-- C3: reconciling a pair the same person already holds with the same active
flag is a no-op success returning the existing row's identifier, and running
the identical reconciliation again returns the same identifier from the same
(unchanged) store. -/
theorem C3_idempotentReconciliation (db : DB) (id : Int) (cred : Credential)
    (cid : Int)
    (hfind : db.findCred cred.siteCode cred.cardCode = some (cid, id, cred.active))
    (hcid : cid ≠ 0) :
    db.CreateCredential id cred = .ok (cid, db) ∧
    db.CreateCredentialState id cred = db ∧
    (db.CreateCredentialState id cred).CreateCredential id cred = .ok (cid, db) := by
  have h1 : db.CreateCredential id cred = .ok (cid, db) := by
    simp [DB.CreateCredential, hfind, hcid]
  have h2 : db.CreateCredentialState id cred = db := by
    simp [DB.CreateCredentialState, h1]
  exact ⟨h1, h2, by rw [h2]; exact h1⟩

/-- Witness for C3: person 1 already holds (10, 20) actively in row 7;
re-reconciling (10, 20, active) succeeds twice with identifier 7 and no
write. -/
theorem C3_witness :
    DB.CreateCredential ⟨[⟨7, 1, true⟩], [⟨10, 20, 7, 1, false⟩], [], 8⟩ 1
        ⟨0, true, 10, 20⟩ =
      .ok (7, ⟨[⟨7, 1, true⟩], [⟨10, 20, 7, 1, false⟩], [], 8⟩) ∧
    DB.CreateCredentialState ⟨[⟨7, 1, true⟩], [⟨10, 20, 7, 1, false⟩], [], 8⟩ 1
        ⟨0, true, 10, 20⟩ = ⟨[⟨7, 1, true⟩], [⟨10, 20, 7, 1, false⟩], [], 8⟩ ∧
    DB.CreateCredential (DB.CreateCredentialState
        ⟨[⟨7, 1, true⟩], [⟨10, 20, 7, 1, false⟩], [], 8⟩ 1 ⟨0, true, 10, 20⟩) 1
        ⟨0, true, 10, 20⟩ =
      .ok (7, ⟨[⟨7, 1, true⟩], [⟨10, 20, 7, 1, false⟩], [], 8⟩) :=
  C3_idempotentReconciliation _ 1 _ 7 (by decide) (by decide)

/-- C9: deleting a credential the person does not own (absent or foreign) is a
no-op success; an ownership count above 1 is an internal-consistency error
distinct from the business errors; a count of exactly 1 removes the wiegand
binding rows and the credential row in one transaction. -/
theorem C9_deleteCredentialCases (db : DB) (id credID : Int) :
    ((∀ c ∈ db.creds, ¬(c.id = credID ∧ c.personId = id)) →
      db.DeleteCredential id credID = .ok db) ∧
    (1 < (db.creds.filter fun c => decide (c.id = credID ∧ c.personId = id)).length →
      db.DeleteCredential id credID = .error (.internal "unexpected credential count") ∧
      ∀ msg, DBErr.internal msg ≠ .credentialExists ∧ DBErr.internal msg ≠ .notFound) ∧
    ((db.creds.filter fun c => decide (c.id = credID ∧ c.personId = id)).length = 1 →
      db.DeleteCredential id credID = .ok { db with
        wiegand := db.wiegand.filter fun w => decide (¬w.credentialId = credID),
        creds := db.creds.filter fun c => decide (¬c.id = credID) }) := by
  refine ⟨?_, ?_, ?_⟩
  · intro h
    have hz : (db.creds.filter fun c =>
        decide (c.id = credID ∧ c.personId = id)) = [] := by
      rw [List.filter_eq_nil_iff]
      intro c hc
      simpa using h c hc
    simp only [DB.DeleteCredential]
    rw [hz]
    simp
  · intro h
    refine ⟨?_, fun msg => ⟨by simp, by simp⟩⟩
    simp only [DB.DeleteCredential]
    rw [if_neg (by omega), if_pos (by omega)]
  · intro h
    simp only [DB.DeleteCredential]
    rw [if_neg (by omega), if_neg (by omega)]

/-- Witness for C9: all three branches at concrete stores — a foreign row is
left alone without error, a duplicated id yields the internal error, and a
owned singleton row is deleted together with its wiegand rows. -/
theorem C9_witness :
    DB.DeleteCredential ⟨[⟨7, 3, true⟩], [⟨10, 20, 7, 1, false⟩], [], 8⟩ 1 7 =
      .ok ⟨[⟨7, 3, true⟩], [⟨10, 20, 7, 1, false⟩], [], 8⟩ ∧
    DB.DeleteCredential ⟨[⟨7, 1, true⟩, ⟨7, 1, false⟩], [], [], 8⟩ 1 7 =
      .error (.internal "unexpected credential count") ∧
    DB.DeleteCredential ⟨[⟨7, 1, true⟩], [⟨10, 20, 7, 1, false⟩], [], 8⟩ 1 7 =
      .ok ⟨[], [], [], 8⟩ := by
  refine ⟨?_, ?_, ?_⟩
  · exact (C9_deleteCredentialCases ⟨[⟨7, 3, true⟩], [⟨10, 20, 7, 1, false⟩], [], 8⟩
      1 7).1 (by decide)
  · exact ((C9_deleteCredentialCases ⟨[⟨7, 1, true⟩, ⟨7, 1, false⟩], [], [], 8⟩
      1 7).2.1 (by decide)).1
  · have := (C9_deleteCredentialCases ⟨[⟨7, 1, true⟩], [⟨10, 20, 7, 1, false⟩], [], 8⟩
      1 7).2.2 (by decide)
    simpa using this

/-- The items of a prefix of the page stream, transformed and concatenated in
order. -/
def pageJoin (f : β → α) (ps : List (Page β)) : List α :=
  (ps.map fun p => p.items.map f).join

/-- The server-declared total in force before the `i`-th page request: the
loop's initial `total = 1` for `i = 0`, afterwards the `Count` of the most
recently returned page. -/
def pageTotal (t : Int) (ps : List (Page β)) : Nat → Int
  | 0 => t
  | i + 1 => ((ps.get? i).map Page.count).getD 0

theorem pageJoin_nil (f : β → α) : pageJoin f [] = [] := rfl

theorem pageJoin_cons (f : β → α) (p : Page β) (ps : List (Page β)) :
    pageJoin f (p :: ps) = p.items.map f ++ pageJoin f ps := rfl

theorem pageTotal_cons (t : Int) (p : Page β) (ps : List (Page β)) (i : Nat) :
    pageTotal t (p :: ps) (i + 1) = pageTotal p.count ps i := by
  cases i <;> rfl

/-- Soundness of the listing loop: a successful run consumed some prefix of
`k` pages, returned exactly the accumulated items in order, requested page
`i` at the offset equal to the items accumulated before it, did so only while
that count was below the total then in force, and stopped as soon as the
count reached the latest total. -/
theorem paginate_spec (f : β → α) (ps : List (Page β)) :
    ∀ (acc : List α) (total : Int) (res : List α) (offs : List Nat),
      paginate f ps acc total = some (res, offs) →
      ∃ k, k ≤ ps.length ∧
        res = acc ++ pageJoin f (ps.take k) ∧
        offs = (List.range k).map (fun i => (acc ++ pageJoin f (ps.take i)).length) ∧
        (∀ i < k, ((acc ++ pageJoin f (ps.take i)).length : Int) < pageTotal total ps i) ∧
        pageTotal total ps k ≤ ((acc ++ pageJoin f (ps.take k)).length : Int) := by
  induction ps with
  | nil =>
    intro acc total res offs h
    rw [paginate] at h
    split at h
    · exact absurd h (by simp)
    · next hge =>
      obtain ⟨rfl, rfl⟩ : acc = res ∧ [] = offs := by simpa using h
      refine ⟨0, Nat.le_refl 0, by simp [pageJoin], by simp, by omega, ?_⟩
      simpa [pageJoin, pageTotal] using Int.not_lt.mp hge
  | cons p rest ih =>
    intro acc total res offs h
    rw [paginate] at h
    split at h
    · next hlt =>
      cases hrec : paginate f rest (acc ++ p.items.map f) p.count with
      | none => rw [hrec] at h; exact absurd h (by simp)
      | some pr =>
        obtain ⟨res', offs'⟩ := pr
        rw [hrec] at h
        obtain ⟨rfl, rfl⟩ : res' = res ∧ acc.length :: offs' = offs := by simpa using h
        obtain ⟨k, hk, hres, hoffs, hsteps, hstop⟩ := ih _ _ _ _ hrec
        refine ⟨k + 1, by simpa using hk, ?_, ?_, ?_, ?_⟩
        · simpa [pageJoin_cons, List.append_assoc] using hres
        · rw [List.range_succ_eq_map, List.map_cons, List.map_map]
          refine congrArg₂ _ (by simp [pageJoin]) ?_
          rw [hoffs]
          exact List.map_congr_left fun i _ => by
            simp [Function.comp, pageJoin_cons, List.append_assoc]
        · intro i hi
          match i with
          | 0 => simpa [pageJoin] using hlt
          | j + 1 =>
            rw [pageTotal_cons]
            have := hsteps j (by omega)
            simpa [pageJoin_cons, List.append_assoc] using this
        · rw [pageTotal_cons]
          simpa [pageJoin_cons, List.append_assoc] using hstop
    · next hge =>
      obtain ⟨rfl, rfl⟩ : acc = res ∧ [] = offs := by simpa using h
      refine ⟨0, Nat.zero_le _, by simp [pageJoin], by simp, by omega, ?_⟩
      simpa [pageJoin, pageTotal] using Int.not_lt.mp hge

/-- C4: the full-listing protocol of `ListPeople` and `ListGroups` starts at
offset 0, requests each page at the count of items accumulated so far, appends
the returned items in order, and terminates exactly when the count reaches the
latest server-declared total; a declared total of 0 yields an empty list after
one page request, and a total of 5 across pages of sizes 2+2+1 yields exactly
those 5 items in order. -/
theorem C4_fullListingProtocol :
    (∀ (pages : List (Page RawPerson)) (res : List ApiPerson) (offs : List Nat),
      Conn.ListPeople pages = some (res, offs) →
      ∃ k, k ≤ pages.length ∧
        res = pageJoin personOfRaw (pages.take k) ∧
        offs = (List.range k).map
          (fun i => (pageJoin personOfRaw (pages.take i)).length) ∧
        (∀ i < k, ((pageJoin personOfRaw (pages.take i)).length : Int) <
          pageTotal 1 pages i) ∧
        pageTotal 1 pages k ≤ ((pageJoin personOfRaw (pages.take k)).length : Int)) ∧
    (∀ (pages : List (Page RawGroup)) (res : List ApiGroup) (offs : List Nat),
      Conn.ListGroups pages = some (res, offs) →
      ∃ k, k ≤ pages.length ∧
        res = pageJoin groupOfRaw (pages.take k) ∧
        offs = (List.range k).map
          (fun i => (pageJoin groupOfRaw (pages.take i)).length) ∧
        (∀ i < k, ((pageJoin groupOfRaw (pages.take i)).length : Int) <
          pageTotal 1 pages i) ∧
        pageTotal 1 pages k ≤ ((pageJoin groupOfRaw (pages.take k)).length : Int)) ∧
    Conn.ListPeople [⟨[], 0⟩] = some ([], [0]) ∧
    (∀ a b c d e : RawPerson,
      Conn.ListPeople [⟨[a, b], 5⟩, ⟨[c, d], 5⟩, ⟨[e], 5⟩] =
        some ([a, b, c, d, e].map personOfRaw, [0, 2, 4])) := by
  refine ⟨?_, ?_, ?_, ?_⟩
  · intro pages res offs h
    simpa using paginate_spec personOfRaw pages [] 1 res offs h
  · intro pages res offs h
    simpa using paginate_spec groupOfRaw pages [] 1 res offs h
  · rfl
  · intro a b c d e
    simp [Conn.ListPeople, paginate]

/-- Witness for C4: the zero-total page stream, with the general soundness
statement instantiated there (its `ListPeople = some _` hypothesis is
discharged by evaluation). -/
theorem C4_witness :
    ∃ k, k ≤ 1 ∧
      ([] : List ApiPerson) = pageJoin personOfRaw (([⟨[], 0⟩] : List (Page RawPerson)).take k) ∧
      ([0] : List Nat) = (List.range k).map
        (fun i => (pageJoin personOfRaw (([⟨[], 0⟩] : List (Page RawPerson)).take i)).length) ∧
      (∀ i < k, ((pageJoin personOfRaw (([⟨[], 0⟩] : List (Page RawPerson)).take i)).length : Int) <
        pageTotal 1 ([⟨[], 0⟩] : List (Page RawPerson)) i) ∧
      pageTotal 1 ([⟨[], 0⟩] : List (Page RawPerson)) k ≤
        ((pageJoin personOfRaw (([⟨[], 0⟩] : List (Page RawPerson)).take k)).length : Int) :=
  C4_fullListingProtocol.1 [⟨[], 0⟩] [] [0] rfl

/-- Counterexample for C5: a second page declares total 3 while 4 items are
already accumulated (a decreasing total), yet `ListPeople` returns a
successful result — the accumulated items — rather than any protocol error. -/
theorem C5_counterexample :
    Conn.ListPeople
        [⟨[⟨1, "", "", "", "", ""⟩, ⟨2, "", "", "", "", ""⟩], 5⟩,
         ⟨[⟨3, "", "", "", "", ""⟩, ⟨4, "", "", "", "", ""⟩], 3⟩] =
      some ([⟨1, "", "", "", "", ""⟩, ⟨2, "", "", "", "", ""⟩,
             ⟨3, "", "", "", "", ""⟩, ⟨4, "", "", "", "", ""⟩].map personOfRaw,
            [0, 2]) := by
  simp [Conn.ListPeople, paginate]

/-- C5 (amended): when a page reports a total that the accumulated item count
already meets or exceeds — in particular any decreasing total — the listing
loop terminates successfully at that point with the accumulated items; no
protocol error is raised. -/
theorem C5_decreasingTotalStopsLoop (f : β → α) (p : Page β)
    (rest : List (Page β)) (acc : List α) (total : Int)
    (h1 : (acc.length : Int) < total)
    (h2 : p.count ≤ ((acc ++ p.items.map f).length : Int)) :
    paginate f (p :: rest) acc total = some (acc ++ p.items.map f, [acc.length]) := by
  rw [paginate, if_pos h1]
  cases rest with
  | nil => rw [paginate, if_neg (Int.not_lt.mpr h2)]
  | cons q qs => rw [paginate, if_neg (Int.not_lt.mpr h2)]

/-- Witness for C5: the amended statement at the counterexample's second
page. -/
theorem C5_witness :
    paginate personOfRaw [⟨[⟨3, "", "", "", "", ""⟩, ⟨4, "", "", "", "", ""⟩], 3⟩]
        ([⟨1, "", "", "", "", ""⟩, ⟨2, "", "", "", "", ""⟩].map personOfRaw) 5 =
      some (([⟨1, "", "", "", "", ""⟩, ⟨2, "", "", "", "", ""⟩].map personOfRaw) ++
          [⟨3, "", "", "", "", ""⟩, ⟨4, "", "", "", "", ""⟩].map personOfRaw,
        [([⟨1, "", "", "", "", ""⟩, ⟨2, "", "", "", "", ""⟩].map personOfRaw).length]) :=
  C5_decreasingTotalStopsLoop personOfRaw _ _ _ 5 (by simp) (by simp)

/-- With an always-failing task, a positive jitter bound, and a positive retry
budget not yet reached, the retry loop runs until `tries` hits `MaxRetries`
and surfaces the error of the final invocation. -/
theorem retryLoop_alwaysFail (s : RetryStrategy) (jit : Nat → Int) (g : Nat → ε) :
    ∀ (fuel tries : Nat) (backoff : Int),
      tries < s.maxRetries → s.maxRetries ≤ fuel + tries → 0 < s.maxJitter →
      ∃ r, retryLoop s jit (fun n => some (g n)) fuel tries backoff = some r ∧
        r.outcome = .exhausted (g (s.maxRetries - 1)) ∧
        r.calls = s.maxRetries - tries ∧
        r.sleeps.length = s.maxRetries - tries - 1 := by
  intro fuel
  induction fuel with
  | zero => intro tries backoff h1 h2 _; omega
  | succ n ih =>
    intro tries backoff h1 h2 h3
    by_cases he : tries + 1 = s.maxRetries
    · refine ⟨⟨.exhausted (g tries), [], 1⟩, ?_, ?_, ?_, ?_⟩
      · rw [retryLoop]
        simp [he]
      · have h : tries = s.maxRetries - 1 := by omega
        rw [show RetryRun.outcome ⟨.exhausted (g tries), [], 1⟩ =
          RetryOutcome.exhausted (g tries) from rfl, h]
      · show 1 = s.maxRetries - tries
        omega
      · show ([] : List Int).length = s.maxRetries - tries - 1
        simp only [List.length_nil]
        omega
    · obtain ⟨r, hr, ho, hc, hl⟩ := ih (tries + 1)
        ((if backoff > s.maxDuration then s.maxDuration else backoff) * 2)
        (by omega) (by omega) h3
      refine ⟨⟨r.outcome,
        ((if backoff > s.maxDuration then s.maxDuration else backoff) + jit tries)
          :: r.sleeps, r.calls + 1⟩, ?_, ho, by simp [hc]; omega, by simp [hl]; omega⟩
      rw [retryLoop]
      simp only [he, if_false, Int.not_le.mpr h3, hr]

/-- With `MaxRetries = 0` and a positive jitter bound, `tries + 1 = MaxRetries`
never holds, so an always-failing task is retried without bound: no amount of
fuel makes the loop return. -/
theorem retryLoop_zeroBudgetDiverges (s : RetryStrategy) (jit : Nat → Int)
    (g : Nat → ε) (h0 : s.maxRetries = 0) (h3 : 0 < s.maxJitter) :
    ∀ (fuel tries : Nat) (backoff : Int),
      retryLoop s jit (fun n => some (g n)) fuel tries backoff = none := by
  intro fuel
  induction fuel with
  | zero => intro tries backoff; rfl
  | succ n ih =>
    intro tries backoff
    rw [retryLoop]
    simp only [h0, Nat.succ_ne_zero, if_false, Int.not_le.mpr h3, ih]

set_option maxRecDepth 4000 in
/-- Counterexample for C6: with `MaxRetries = 0` (a configuration the claim
explicitly includes) and a task failing every invocation, `Retry` has not
terminated after 100 iterations — far beyond the configured maximum of 0
attempts — instead of returning the last error. -/
theorem C6_counterexample :
    RetryStrategy.Retry ⟨1, 0, 60, 1⟩ (fun _ => 0) (fun _ => some 0) 100 =
      (none : Option (RetryRun Nat)) := by decide

/-- C6 (amended): with a positive jitter bound and an always-failing task,
`Retry` with `MaxRetries ≥ 1` terminates after exactly `MaxRetries`
invocations (with `MaxRetries - 1` sleeps) and returns the error of the last
invocation; with `MaxRetries = 0` it never terminates, retrying without
bound. -/
theorem C6_retryBudget {ε : Type} :
    (∀ (s : RetryStrategy) (jit : Nat → Int) (g : Nat → ε) (fuel : Nat),
      1 ≤ s.maxRetries → 0 < s.maxJitter → s.maxRetries ≤ fuel →
      ∃ r, s.Retry jit (fun n => some (g n)) fuel = some r ∧
        r.outcome = .exhausted (g (s.maxRetries - 1)) ∧
        r.calls = s.maxRetries ∧
        r.sleeps.length = s.maxRetries - 1) ∧
    (∀ (s : RetryStrategy) (jit : Nat → Int) (g : Nat → ε) (fuel : Nat),
      s.maxRetries = 0 → 0 < s.maxJitter →
      s.Retry jit (fun n => some (g n)) fuel = none) := by
  constructor
  · intro s jit g fuel h1 h3 hf
    obtain ⟨r, hr, ho, hc, hl⟩ :=
      retryLoop_alwaysFail s jit g fuel 0 s.initial (by omega) (by omega) h3
    exact ⟨r, hr, ho, by omega, by omega⟩
  · intro s jit g fuel h0 h3
    exact retryLoop_zeroBudgetDiverges s jit g h0 h3 fuel 0 s.initial

/-- Witness for C6 (amended): `MaxRetries = 2` exhausts after exactly 2 calls
returning the second error, and `MaxRetries = 0` is still running after 7
iterations. -/
theorem C6_witness :
    (∃ r, RetryStrategy.Retry ⟨1, 2, 60, 1⟩ (fun _ => 0) (fun n => some n) 5 =
        some r ∧ r.outcome = .exhausted 1 ∧ r.calls = 2 ∧ r.sleeps.length = 1) ∧
    RetryStrategy.Retry ⟨1, 0, 60, 1⟩ (fun _ => 0) (fun n => some n) 7 = none :=
  ⟨C6_retryBudget.1 ⟨1, 2, 60, 1⟩ (fun _ => 0) (fun n => n) 5 (by decide) (by decide)
      (by decide),
    C6_retryBudget.2 ⟨1, 0, 60, 1⟩ (fun _ => 0) (fun n => n) 7 (by decide) (by decide)⟩

/-- C7: with `Initial = 1s`, `MaxDuration = 60s`, `MaxRetries = 5` (durations
in nanoseconds) and a task failing its first 3 invocations and succeeding on
the 4th, `Retry` returns success after exactly 4 invocations, and the delay
before re-invocation `k` is `min(Initial * 2^(k-1), MaxDuration)` plus the
jitter drawn from `[0, MaxJitter)`. -/
theorem C7_backoffScenario {ε : Type} (J : Int) (jit : Nat → Int) (err : Nat → ε)
    (fuel : Nat) (hJ : 0 < J) (hjit : ∀ k, 0 ≤ jit k ∧ jit k < J)
    (hfuel : 4 ≤ fuel) :
    ∃ r, RetryStrategy.Retry ⟨1000000000, 5, 60 * 1000000000, J⟩ jit
        (fun n => if n < 3 then some (err n) else none) fuel = some r ∧
      r.outcome = .success ∧
      r.calls = 4 ∧
      r.sleeps = [min (1000000000 * 2 ^ 0) (60 * 1000000000) + jit 0,
                  min (1000000000 * 2 ^ 1) (60 * 1000000000) + jit 1,
                  min (1000000000 * 2 ^ 2) (60 * 1000000000) + jit 2] ∧
      (∀ k < 3, min (1000000000 * 2 ^ k) (60 * 1000000000) ≤ r.sleeps.getD k 0 ∧
        r.sleeps.getD k 0 < min (1000000000 * 2 ^ k) (60 * 1000000000) + J) := by
  obtain ⟨m, rfl⟩ : ∃ m, fuel = m + 4 := ⟨fuel - 4, by omega⟩
  have hJ' : ¬(J ≤ 0) := Int.not_le.mpr hJ
  have hrun : retryLoop ⟨1000000000, 5, 60 * 1000000000, J⟩ jit
      (fun n => if n < 3 then some (err n) else none) (m + 4) 0 1000000000 =
      some ⟨.success,
        [1000000000 + jit 0, 1000000000 * 2 + jit 1, 1000000000 * 2 * 2 + jit 2],
        4⟩ := by
    simp only [retryLoop]
    norm_num [hJ']
  refine ⟨_, hrun, rfl, rfl, ?_, ?_⟩
  · norm_num
  · intro k hk
    have h0 := hjit 0
    have h1 := hjit 1
    have h2 := hjit 2
    match k, hk with
    | 0, _ => constructor <;> · simp only [List.getD]; norm_num; omega
    | 1, _ => constructor <;> · simp only [List.getD]; norm_num; omega
    | 2, _ => constructor <;> · simp only [List.getD]; norm_num; omega

/-- Witness for C7: zero jitter draws within bound `J = 1`, fuel 6. -/
theorem C7_witness :
    ∃ r, RetryStrategy.Retry ⟨1000000000, 5, 60 * 1000000000, 1⟩ (fun _ => 0)
        (fun n => if n < 3 then some (toString n) else none) 6 = some r ∧
      r.outcome = .success ∧
      r.calls = 4 ∧
      r.sleeps = [min (1000000000 * 2 ^ 0) (60 * 1000000000) + 0,
                  min (1000000000 * 2 ^ 1) (60 * 1000000000) + 0,
                  min (1000000000 * 2 ^ 2) (60 * 1000000000) + 0] ∧
      (∀ k < 3, min (1000000000 * 2 ^ k) (60 * 1000000000) ≤ r.sleeps.getD k 0 ∧
        r.sleeps.getD k 0 < min (1000000000 * 2 ^ k) (60 * 1000000000) + 1) :=
  C7_backoffScenario 1 (fun _ => 0) (fun n => toString n) 6 (by decide)
    (fun k => ⟨by simp, by simp⟩) (by decide)

/-- C10: whenever `MaxJitter ≤ 0` and the first invocation fails with the
retry budget not already spent (`MaxRetries ≠ 1`), the backoff step's
`rand.Int63n(int64(MaxJitter))` call panics — one invocation, no sleep, no
retry. -/
theorem C10_nonPositiveJitterPanics {ε : Type} (s : RetryStrategy)
    (jit : Nat → Int) (f : Nat → Option ε) (e : ε) (fuel : Nat)
    (hJ : s.maxJitter ≤ 0) (hf : f 0 = some e) (hm : s.maxRetries ≠ 1)
    (hfuel : 1 ≤ fuel) :
    s.Retry jit f fuel = some ⟨.panicked, [], 1⟩ := by
  obtain ⟨m, rfl⟩ : ∃ m, fuel = m + 1 := ⟨fuel - 1, by omega⟩
  have hm' : ¬(0 + 1 = s.maxRetries) := by omega
  simp only [RetryStrategy.Retry, retryLoop, hf, if_neg hm', if_pos hJ]

/-- Witness for C10: `MaxJitter = 0`, `MaxRetries = 5`, first invocation
fails: the run ends in the panic after exactly one call. -/
theorem C10_witness :
    RetryStrategy.Retry ⟨1, 5, 60, 0⟩ (fun _ => 0) (fun _ => some 0) 3 =
      some ⟨.panicked, [], (1 : Nat)⟩ :=
  C10_nonPositiveJitterPanics ⟨1, 5, 60, 0⟩ (fun _ => 0) (fun _ => some (0 : Nat))
    0 3 (by decide) rfl (by decide) (by decide)

/-- C1: evaluation at the failing inputs.  With no photograph in the request
(`Image == nil` for create, `len(Image) == 0` for update) both operations
return success with an empty reconciler-call trace even though a supplied
credential (5, 6) differs from the primary pair (1, 2); the identical create
request with a photograph does pass that credential to the reconciler.  This
refutes the claim's "regardless of whether a photograph was supplied". -/
theorem C1_photoGatesCredentialReconciliation :
    Service.CreatePerson
        ⟨⟨[], [], [], 1⟩, fun _ => .ok 42, fun _ => .ok ()⟩
        ⟨0, "", "", "", "", 1, 2, none, false, [], [⟨0, true, 5, 6⟩]⟩ =
      (.ok 42, ⟨[], [], [], 1⟩, []) ∧
    Service.UpdatePerson
        ⟨⟨[], [], [], 1⟩, fun _ => .ok 42, fun _ => .ok ()⟩
        ⟨7, "", "", "", "", 1, 2, none, false, [], [⟨0, true, 5, 6⟩]⟩ =
      (.ok (), ⟨[], [], [], 1⟩, []) ∧
    (Service.CreatePerson
        ⟨⟨[], [], [], 1⟩, fun _ => .ok 42, fun _ => .ok ()⟩
        ⟨0, "", "", "", "", 1, 2, some [9], false, [], [⟨0, true, 5, 6⟩]⟩).2.2 =
      [⟨0, true, 5, 6⟩] :=
  ⟨rfl, rfl, rfl⟩

/-- A successful reconciler transaction never touches the picture table. -/
theorem CreateCredential_pictures (db : DB) (id : Int) (cred : Credential)
    (i : Int) (db' : DB) (h : db.CreateCredential id cred = .ok (i, db')) :
    db'.pictures = db.pictures := by
  simp only [DB.CreateCredential] at h
  split at h
  · exact absurd h (by simp)
  · split at h
    · simp only [Except.ok.injEq, Prod.mk.injEq] at h
      rw [← h.2]
    · split at h
      · simp only [Except.ok.injEq, Prod.mk.injEq] at h
        rw [← h.2]
      · split at h
        · exact absurd h (by simp)
        · simp only [Except.ok.injEq, Prod.mk.injEq] at h
          rw [← h.2]

/-- The credential loop never touches the picture table. -/
theorem credentialLoop_pictures (id site card : Int) :
    ∀ (l : List Credential) (db : DB),
      (credentialLoop id site card db l).2.1.pictures = db.pictures := by
  intro l
  induction l with
  | nil => intro db; rfl
  | cons c rest ih =>
    intro db
    rw [credentialLoop]
    split
    · exact ih db
    · cases hcc : db.CreateCredential id c with
      | error e => simp [hcc]
      | ok pr =>
        obtain ⟨i, db'⟩ := pr
        simp only [hcc]
        rw [ih db']
        exact CreateCredential_pictures db id c i db' hcc

/-- After overwriting, the first picture row found for `id` carries the new
buffer. -/
theorem find?_overwrite (l : List (Int × Option (List Nat))) (id : Int)
    (buf : Option (List Nat)) (hex : ∃ x ∈ l, x.1 = id) :
    (l.map fun r => if r.1 = id then (r.1, buf) else r).find?
      (fun r => decide (r.1 = id)) = some (id, buf) := by
  induction l with
  | nil => simp at hex
  | cons a l ih =>
    by_cases ha : a.1 = id
    · rw [List.map_cons, if_pos ha, List.find?_cons_of_pos _ (by simpa using ha)]
      rw [ha]
    · rw [List.map_cons, if_neg ha, List.find?_cons_of_neg _ (by simpa using ha)]
      rcases hex with ⟨z, hz, hz1⟩
      rcases List.mem_cons.mp hz with rfl | hzl
      · exact absurd hz1 ha
      · exact ih ⟨z, hzl, hz1⟩

/-- Reading right after `UpdatePicture` returns the written buffer. -/
theorem UpdatePicture_ReadPicture (db : DB) (id : Int) (buf : Option (List Nat)) :
    (db.UpdatePicture id buf).ReadPicture id = .ok buf := by
  unfold DB.UpdatePicture DB.ReadPicture
  by_cases h : (db.pictures.filter fun r => decide (r.1 = id)).length = 0
  · rw [if_pos h]
    have hnone : db.pictures.find? (fun r => decide (r.1 = id)) = none := by
      rw [List.find?_eq_none]
      intro z hz
      simp only [decide_eq_true_eq]
      intro hz1
      have hmem : z ∈ db.pictures.filter fun r => decide (r.1 = id) :=
        List.mem_filter.mpr ⟨hz, by simpa using hz1⟩
      rw [List.length_eq_zero] at h
      rw [h] at hmem
      exact absurd hmem (List.not_mem_nil z)
    rw [List.find?_append, hnone]
    simp
  · rw [if_neg h]
    have hex : ∃ z ∈ db.pictures, z.1 = id := by
      obtain ⟨z, hz⟩ := List.exists_mem_of_length_pos (Nat.pos_of_ne_zero h)
      rcases List.mem_filter.mp hz with ⟨hz1, hz2⟩
      exact ⟨z, hz1, by simpa using hz2⟩
    rw [find?_overwrite db.pictures id buf hex]

/-- `ReadPicture` only looks at the picture table. -/
theorem ReadPicture_congr (db1 db2 : DB) (id : Int)
    (h : db1.pictures = db2.pictures) :
    db1.ReadPicture id = db2.ReadPicture id := by
  unfold DB.ReadPicture
  rw [h]

/-- C8: the `has_image` field of the create/update response is recomputed
server-side: two otherwise-identical requests differing only in the supplied
`has_image` value behave identically (same success/failure, same response,
same resulting store), and on success the response's `has_image` equals the
store's actual picture state after the mutation (for create, under the
assumption that the remote directory assigned a fresh identifier with no
stale picture row; for update, under the store invariant that stored picture
rows are nonempty). -/
theorem C8_hasImageServerSide (w : World) (p : Person) (x y : Bool) (idArg : Int) :
    (Service.CreatePersonHandler w { p with hasImage := x } =
      Service.CreatePersonHandler w { p with hasImage := y }) ∧
    (Service.UpdatePersonHandler w idArg { p with hasImage := x } =
      Service.UpdatePersonHandler w idArg { p with hasImage := y }) ∧
    (∀ resp db', Service.CreatePersonHandler w p = .ok (resp, db') →
      (∀ id', w.apiCreatePerson (apiPersonOfCreate p) = .ok id' →
        w.db.ReadPicture id' = .error .notFound) →
      resp.hasImage = hasPicture db' resp.id) ∧
    (∀ resp db', Service.UpdatePersonHandler w idArg p = .ok (resp, db') →
      (∀ v, w.db.ReadPicture idArg = .ok v → golen v ≠ 0) →
      resp.hasImage = hasPicture db' resp.id) := by
  refine ⟨rfl, rfl, ?_, ?_⟩
  · intro resp db' hok hfresh
    cases hapi : w.apiCreatePerson (apiPersonOfCreate p) with
    | error e =>
      have hh : Service.CreatePersonHandler w p = .error (.api e) := by
        simp [Service.CreatePersonHandler, Service.CreatePerson, hapi]
      rw [hh] at hok
      exact absurd hok (by simp)
    | ok id' =>
      have hfresh' := hfresh id' hapi
      by_cases himg : p.image = none
      · have hsvc : Service.CreatePerson w p = (.ok id', w.db, []) := by
          simp [Service.CreatePerson, hapi, himg]
        have hh : Service.CreatePersonHandler w p =
            .ok ({ p with
              id := id', hasImage := (golen p.image != 0),
              image := none, groupsToAdd := [] }, w.db) := by
          simp [Service.CreatePersonHandler, hsvc]
        rw [hh] at hok
        simp only [Except.ok.injEq, Prod.mk.injEq] at hok
        obtain ⟨h1, h2⟩ := hok
        subst h1
        subst h2
        simp [hasPicture, himg, hfresh', golen]
      · rcases hl : credentialLoop id' p.siteCode p.cardCode
            (w.db.UpdatePicture id' p.image) p.credentials with ⟨o, db2, t⟩
        have hpic : db2.pictures = (w.db.UpdatePicture id' p.image).pictures := by
          have h2 := credentialLoop_pictures id' p.siteCode p.cardCode
            p.credentials (w.db.UpdatePicture id' p.image)
          rw [hl] at h2
          exact h2
        cases o with
        | some e =>
          have hsvc : Service.CreatePerson w p = (.error (.dbe e), db2, t) := by
            simp [Service.CreatePerson, hapi, himg, hl]
          have hh : Service.CreatePersonHandler w p = .error (.dbe e) := by
            simp [Service.CreatePersonHandler, hsvc]
          rw [hh] at hok
          exact absurd hok (by simp)
        | none =>
          have hsvc : Service.CreatePerson w p = (.ok id', db2, t) := by
            simp [Service.CreatePerson, hapi, himg, hl]
          have hh : Service.CreatePersonHandler w p =
              .ok ({ p with
                id := id', hasImage := (golen p.image != 0),
                image := none, groupsToAdd := [] }, db2) := by
            simp [Service.CreatePersonHandler, hsvc]
          rw [hh] at hok
          simp only [Except.ok.injEq, Prod.mk.injEq] at hok
          obtain ⟨h1, h2⟩ := hok
          subst h1
          subst h2
          simp only [hasPicture]
          rw [ReadPicture_congr db2 (w.db.UpdatePicture id' p.image) id' hpic,
            UpdatePicture_ReadPicture]
  · intro resp db' hok hwf
    by_cases hid : idArg = 0
    · have hsvc : Service.UpdatePerson w { p with id := idArg, hasImage := false } =
          (.error .invalidID, w.db, []) := by
        simp [Service.UpdatePerson, hid]
      have hh : Service.UpdatePersonHandler w idArg p = .error .invalidID := by
        simp [Service.UpdatePersonHandler, hsvc]
      rw [hh] at hok
      exact absurd hok (by simp)
    · cases hapi : w.apiUpdatePerson
          (apiPersonOf { p with id := idArg, hasImage := false }) with
      | error e =>
        have hsvc : Service.UpdatePerson w { p with id := idArg, hasImage := false } =
            (.error (.api e), w.db, []) := by
          simp [Service.UpdatePerson, hid, hapi]
        have hh : Service.UpdatePersonHandler w idArg p = .error (.api e) := by
          simp [Service.UpdatePersonHandler, hsvc]
        rw [hh] at hok
        exact absurd hok (by simp)
      | ok u =>
        by_cases hg : golen p.image = 0
        · have hsvc : Service.UpdatePerson w { p with id := idArg, hasImage := false } =
              (.ok (), w.db, []) := by
            simp [Service.UpdatePerson, hid, hapi, hg]
          cases hrp : w.db.ReadPicture idArg with
          | error de =>
            cases de with
            | notFound =>
              have hh : Service.UpdatePersonHandler w idArg p =
                  .ok ({ p with
                    id := idArg, hasImage := false,
                    groupsToAdd := [] }, w.db) := by
                simp [Service.UpdatePersonHandler, hsvc, hg, hrp]
              rw [hh] at hok
              simp only [Except.ok.injEq, Prod.mk.injEq] at hok
              obtain ⟨h1, h2⟩ := hok
              subst h1
              subst h2
              simp [hasPicture, hrp]
            | credentialExists =>
              have hh : Service.UpdatePersonHandler w idArg p =
                  .error (.dbe .credentialExists) := by
                simp [Service.UpdatePersonHandler, hsvc, hg, hrp]
              rw [hh] at hok
              exact absurd hok (by simp)
            | internal msg =>
              have hh : Service.UpdatePersonHandler w idArg p =
                  .error (.dbe (.internal msg)) := by
                simp [Service.UpdatePersonHandler, hsvc, hg, hrp]
              rw [hh] at hok
              exact absurd hok (by simp)
          | ok v =>
            have hh : Service.UpdatePersonHandler w idArg p =
                .ok ({ p with
                  id := idArg, hasImage := true,
                  groupsToAdd := [] }, w.db) := by
              simp [Service.UpdatePersonHandler, hsvc, hg, hrp]
            rw [hh] at hok
            simp only [Except.ok.injEq, Prod.mk.injEq] at hok
            obtain ⟨h1, h2⟩ := hok
            subst h1
            subst h2
            have hv := hwf v hrp
            simp only [hasPicture]
            rw [hrp]
            simpa using (bne_iff_ne.mpr hv).symm
        · rcases hl : credentialLoop idArg p.siteCode p.cardCode
              (w.db.UpdatePicture idArg p.image) p.credentials with ⟨o, db2, t⟩
          have hpic : db2.pictures = (w.db.UpdatePicture idArg p.image).pictures := by
            have h2 := credentialLoop_pictures idArg p.siteCode p.cardCode
              p.credentials (w.db.UpdatePicture idArg p.image)
            rw [hl] at h2
            exact h2
          cases o with
          | some e =>
            have hsvc : Service.UpdatePerson w
                { p with id := idArg, hasImage := false } =
                (.error (.dbe e), db2, t) := by
              simp [Service.UpdatePerson, hid, hapi, hg, hl]
            have hh : Service.UpdatePersonHandler w idArg p = .error (.dbe e) := by
              simp [Service.UpdatePersonHandler, hsvc]
            rw [hh] at hok
            exact absurd hok (by simp)
          | none =>
            have hsvc : Service.UpdatePerson w
                { p with id := idArg, hasImage := false } = (.ok (), db2, t) := by
              simp [Service.UpdatePerson, hid, hapi, hg, hl]
            have hh : Service.UpdatePersonHandler w idArg p =
                .ok ({ p with
                  id := idArg, hasImage := true, image := none,
                  groupsToAdd := [] }, db2) := by
              simp [Service.UpdatePersonHandler, hsvc, hg]
            rw [hh] at hok
            simp only [Except.ok.injEq, Prod.mk.injEq] at hok
            obtain ⟨h1, h2⟩ := hok
            subst h1
            subst h2
            simp only [hasPicture]
            rw [ReadPicture_congr db2 (w.db.UpdatePicture idArg p.image) idArg hpic,
              UpdatePicture_ReadPicture]
            simpa using (bne_iff_ne.mpr hg).symm

/-- Witness for C8: a concrete create (fresh id 42, photo supplied) and a
concrete update (id 3, photo supplied) against an empty store. -/
theorem C8_witness :
    (Service.CreatePersonHandler ⟨⟨[], [], [], 1⟩, fun _ => .ok 42, fun _ => .ok ()⟩
        { (⟨0, "", "", "", "", 1, 2, some [7], false, [], []⟩ : Person) with
          hasImage := true } =
      Service.CreatePersonHandler ⟨⟨[], [], [], 1⟩, fun _ => .ok 42, fun _ => .ok ()⟩
        { (⟨0, "", "", "", "", 1, 2, some [7], false, [], []⟩ : Person) with
          hasImage := false }) ∧
    (⟨42, "", "", "", "", 1, 2, none, true, [], []⟩ : Person).hasImage =
      hasPicture ⟨[], [], [(42, some [7])], 1⟩ 42 ∧
    (⟨3, "", "", "", "", 1, 2, none, true, [], []⟩ : Person).hasImage =
      hasPicture ⟨[], [], [(3, some [7])], 1⟩ 3 :=
  ⟨(C8_hasImageServerSide ⟨⟨[], [], [], 1⟩, fun _ => .ok 42, fun _ => .ok ()⟩
      ⟨0, "", "", "", "", 1, 2, some [7], false, [], []⟩ true false 3).1,
   (C8_hasImageServerSide ⟨⟨[], [], [], 1⟩, fun _ => .ok 42, fun _ => .ok ()⟩
      ⟨0, "", "", "", "", 1, 2, some [7], false, [], []⟩ true false 3).2.2.1
      ⟨42, "", "", "", "", 1, 2, none, true, [], []⟩ ⟨[], [], [(42, some [7])], 1⟩
      rfl (fun id' h => by cases h; rfl),
   (C8_hasImageServerSide ⟨⟨[], [], [], 1⟩, fun _ => .ok 42, fun _ => .ok ()⟩
      ⟨0, "", "", "", "", 1, 2, some [7], false, [], []⟩ true false 3).2.2.2
      ⟨3, "", "", "", "", 1, 2, none, true, [], []⟩ ⟨[], [], [(3, some [7])], 1⟩
      rfl (fun v h => by cases h)⟩
